import Mathlib

/-!
Shallow embedding of the resilient packet dispatcher implemented in
src/autojobs/sendpack/sendpack.ts (the hardened SendPack class: Zod
validation, timeout-bounded fetch, linear backoff with retry-after
override, robust response-body parsing, structured SendResult).

Modelling conventions:
* JS values carried in packet payloads and response bodies are modelled by
  the JSON-like type JValue; JS numbers that can be non-integral (the
  numeric options and the packet timestamp, which Zod checks for
  integrality) are modelled by Rat.
* The network transport (node-fetch plus the AbortController timeout) is a
  parameter: a function from the 1-based attempt number and the request
  body to either a received response or a thrown error.  An AbortError is
  flagged by a Boolean.
* send is deterministic given that transport; it additionally returns a
  Trace recording every outbound call (body and headers) and every backoff
  wait (in milliseconds), which makes the observable I/O of the loop
  provable.
-/

namespace BitWakeScan

/-- JSON-like values (payload fields, parsed response bodies).  Numbers are
restricted to integers: the dispatcher only ever serializes payloads after
validation, and JS float formatting is outside the scope of this model. -/
inductive JValue where
  | null
  | bool (b : Bool)
  | num (n : Int)
  | str (s : String)
  | arr (elems : List JValue)
  | obj (fields : List (String × JValue))

/-- Lower-case hex digit for JSON control-character escapes. -/
def hexDigit (n : Nat) : Char :=
  if n < 10 then Char.ofNat (48 + n) else Char.ofNat (87 + n)

/-- Four-hex-digit rendering used by the \u00XX escapes of JSON.stringify. -/
def hex4 (n : Nat) : String :=
  String.mk [hexDigit (n / 4096 % 16), hexDigit (n / 256 % 16),
    hexDigit (n / 16 % 16), hexDigit (n % 16)]

/-- Character escaping of JSON.stringify for string values. -/
def jsonEscapeChar (c : Char) : String :=
  if c = '"' then "\\\""
  else if c = '\\' then "\\\\"
  else if c = '\n' then "\\n"
  else if c = '\r' then "\\r"
  else if c = '\t' then "\\t"
  else if c = Char.ofNat 8 then "\\b"
  else if c = Char.ofNat 12 then "\\f"
  else if c.toNat < 32 then "\\u" ++ hex4 c.toNat
  else String.singleton c

/-- Quoted JSON string literal, as produced by JSON.stringify. -/
def jsonQuote (s : String) : String :=
  "\"" ++ String.join (s.data.map jsonEscapeChar) ++ "\""

mutual

/-- JSON.stringify on the JValue fragment (object keys in insertion order,
no whitespace, exactly as the V8 serializer emits them). -/
def JValue.stringify : JValue → String
  | .null => "null"
  | .bool b => if b then "true" else "false"
  | .num n => toString n
  | .str s => jsonQuote s
  | .arr elems => "[" ++ String.intercalate "," (stringifyElems elems) ++ "]"
  | .obj fields => "\x7b" ++ String.intercalate "," (stringifyFields fields) ++ "\x7d"

/-- Serialized forms of the elements of a JSON array. -/
def stringifyElems : List JValue → List String
  | [] => []
  | v :: vs => v.stringify :: stringifyElems vs

/-- Serialized key:value pairs of a JSON object. -/
def stringifyFields : List (String × JValue) → List String
  | [] => []
  | (k, v) :: fs => (jsonQuote k ++ ":" ++ v.stringify) :: stringifyFields fs

end

/-- Discriminates plain JSON objects; Zod's z.record accepts exactly these
(arrays, null and primitives are rejected). -/
def JValue.isObj : JValue → Bool
  | .obj _ => true
  | _ => false

/-- First-match lookup of a key in a JSON object (None on non-objects). -/
def jsonLookup (v : JValue) (key : String) : Option JValue :=
  match v with
  | .obj fields => (fields.find? (fun q => q.1 == key)).map (fun q => q.2)
  | _ => none

/-- Packet as handed to send/validatePacket.  The TS interface types the
timestamp as a JS number, so it is modelled by Rat (Zod later checks that
it is a non-negative integer); the payload is an arbitrary JS value which
Zod later checks to be a plain record. -/
structure PacketInput where
  id : String
  timestamp : Rat
  payload : JValue

/-- SendPackOptions.  The numeric fields are JS numbers (possibly
non-integral, hence Rat); absent fields are none. -/
structure SendPackOptions where
  retries : Option Rat := none
  timeoutMs : Option Rat := none
  headers : Option (List (String × String)) := none
  retryDelayMs : Option Rat := none
  idempotencyKey : Option String := none
  userAgent : Option String := none

def DEFAULT_RETRIES : Nat := 2

def DEFAULT_TIMEOUT_MS : Nat := 5000

def DEFAULT_RETRY_DELAY_MS : Nat := 300

/-- The resolved, immutable dispatcher state (the private readonly fields
of the SendPack class after the constructor ran). -/
structure SendPack where
  endpoint : String
  retries : Nat
  timeoutMs : Nat
  retryDelayMs : Nat
  headers : List (String × String)
  idempotencyKey : Option String

/-- ASCII letter test for the URL scheme start. -/
def isAsciiAlpha (c : Char) : Bool :=
  (97 ≤ c.toNat && c.toNat ≤ 122) || (65 ≤ c.toNat && c.toNat ≤ 90)

/-- Characters allowed after the first one in a URL scheme. -/
def isSchemeChar (c : Char) : Bool :=
  isAsciiAlpha c || c.isDigit || c = '+' || c = '-' || c = '.'

/-- ASCII lowercasing of one character (URL schemes are ASCII). -/
def asciiLower (c : Char) : Char :=
  if 65 ≤ c.toNat && c.toNat ≤ 90 then Char.ofNat (c.toNat + 32) else c

/-- Splits scheme and remainder at the first colon; none when the head of
the input is not scheme-shaped or no colon is reached. -/
def schemeSplit : List Char → List Char → Option (String × List Char)
  | _, [] => none
  | acc, c :: rest =>
    if c = ':' then some (String.mk acc.reverse, rest)
    else if isSchemeChar c then schemeSplit (c :: acc) rest
    else none

/-- URL schemes the WHATWG standard treats as special (requiring a host). -/
def specialSchemes : List String := ["http", "https", "ws", "wss", "ftp"]

/-- Host portion following a special scheme: skip leading slashes, take up
to the next delimiter. -/
def hostPart (rest : List Char) : List Char :=
  (rest.dropWhile (fun c => c = '/')).takeWhile
    (fun c => c ≠ '/' && c ≠ '?' && c ≠ '#')

/-- Models the platform WHATWG URL parser invoked by the constructor via
new URL(endpoint) (runtime library code, not part of this repository):
an absolute URL needs an ASCII-alpha-led scheme terminated by a colon;
the special schemes additionally need a non-empty host free of spaces;
other schemes accept an opaque remainder.  This captures the fragment of
the standard the dispatcher's validation exercises. -/
def urlParseOk (s : String) : Bool :=
  match s.data with
  | [] => false
  | c :: rest =>
    if isAsciiAlpha c then
      match schemeSplit [c] rest with
      | none => false
      | some (scheme, remainder) =>
        if specialSchemes.contains (String.mk (scheme.data.map asciiLower)) then
          hostPart remainder ≠ [] && (hostPart remainder).all (fun ch => ch ≠ ' ')
        else true
    else false

/-- Resolution of one numeric option, mirroring
Number.isInteger(x) && x >= 0 ? x : dflt (resp. x > 0 for the timeout,
selected by the strict flag). -/
def resolveNumericOption (strictPos : Bool) (o : Option Rat) (dflt : Nat) : Nat :=
  match o with
  | some q =>
    if q.den = 1 ∧ (if strictPos then 0 < q.num else 0 ≤ q.num) then q.num.toNat
    else dflt
  | none => dflt

/-- Membership test on header keys (JS object own-property check). -/
def hasKey : List (String × String) → String → Bool
  | [], _ => false
  | p :: rest, k => p.1 = k || hasKey rest k

/-- One JS object-spread assignment: replace the value at an existing key
in place (preserving insertion order), otherwise append the new entry. -/
def setHeader (hs : List (String × String)) (k v : String) : List (String × String) :=
  if hasKey hs k then hs.map (fun p => if p.1 = k then (p.1, v) else p)
  else hs ++ [(k, v)]

/-- Spread of a whole record onto a base object, later entries winning. -/
def mergeHeaders (base : List (String × String)) (upd : List (String × String)) :
    List (String × String) :=
  upd.foldl (fun acc kv => setHeader acc kv.1 kv.2) base

/-- Header map fixed by the constructor: the default Content-Type, then
the optional User-Agent and Idempotency-Key (skipped when falsy, i.e.
empty, per the JS truthiness guards in the source), then the configured
fixed headers, later entries overriding earlier ones of the same name. -/
def buildHeaders (opts : SendPackOptions) : List (String × String) :=
  let h0 := [("Content-Type", "application/json")]
  let h1 := match opts.userAgent with
    | some ua => if ua = "" then h0 else setHeader h0 "User-Agent" ua
    | none => h0
  let h2 := match opts.idempotencyKey with
    | some k => if k = "" then h1 else setHeader h1 "Idempotency-Key" k
    | none => h1
  mergeHeaders h2 (opts.headers.getD [])

/-- The SendPack constructor: reject an empty or unparseable endpoint,
resolve the numeric options (invalid values silently fall back to the
defaults), and fix the header map. -/
def SendPack.construct (endpoint : String) (options : SendPackOptions) :
    Except String SendPack :=
  if endpoint = "" then .error "Endpoint URL is required"
  else if urlParseOk endpoint = false then
    .error ("Invalid endpoint URL: " ++ endpoint)
  else .ok {
    endpoint := endpoint
    retries := resolveNumericOption false options.retries DEFAULT_RETRIES
    timeoutMs := resolveNumericOption true options.timeoutMs DEFAULT_TIMEOUT_MS
    retryDelayMs := resolveNumericOption false options.retryDelayMs DEFAULT_RETRY_DELAY_MS
    headers := buildHeaders options
    idempotencyKey := options.idempotencyKey
  }

/-- validatePacket: the Zod PacketSchema requires a non-empty id string, an
integral non-negative timestamp, and a plain-record payload; on failure an
Invalid packet error (joining the issues) is thrown before any I/O. -/
def validatePacket (p : PacketInput) : Except String Unit :=
  let issues :=
    (if p.id = "" then ["id: String must contain at least 1 character(s)"] else []) ++
    (if p.timestamp.den = 1 ∧ 0 ≤ p.timestamp then []
     else ["timestamp: Expected a non-negative integer"]) ++
    (if p.payload.isObj then [] else ["payload: Expected record"])
  if issues = [] then .ok ()
  else .error ("Invalid packet: " ++ String.intercalate "; " issues)

/-- JSON value that JSON.stringify(packet) serializes: property order id,
timestamp, payload.  The timestamp is rendered through Rat.floor, which
coincides with its exact value in the only case send serializes it (the
packet passed validation, so the timestamp is integral). -/
def packetJson (p : PacketInput) : JValue :=
  .obj [("id", .str p.id), ("timestamp", .num p.timestamp.floor),
    ("payload", p.payload)]

/-- The request body computed once per send call. -/
def stringifyPacket (p : PacketInput) : String :=
  (packetJson p).stringify

/-- create(id, payload): stamps the current time (Date.now() delivers a
non-negative integral millisecond count, passed explicitly here). -/
def create (now : Nat) (id : String) (payload : JValue) : PacketInput :=
  { id := id, timestamp := (now : Rat), payload := payload }

/-- Observable behavior of one received node-fetch Response: status code,
the two headers the dispatcher reads, and the outcomes of res.json()
(none when JSON parsing throws) and res.text() (none when reading the
body throws). -/
structure HttpResponse where
  status : Nat
  retryAfter : Option String := none
  contentType : Option String := none
  jsonResult : Option JValue := none
  textResult : Option String := none

/-- Result of one fetchWithTimeout call: a response, or a thrown error
(isAbort marks the AbortError raised by the timeout controller). -/
inductive TransportResult where
  | ok (res : HttpResponse)
  | err (isAbort : Bool) (message : String)

/-- Value obtained from parseResponseBody: parsed JSON or raw text. -/
inductive BodyVal where
  | json (v : JValue)
  | text (s : String)

/-- Head-anchored match of a candidate substring. -/
def matchesHere : List Char → List Char → Bool
  | _, [] => true
  | [], _ :: _ => false
  | c :: cs, p :: ps => c = p && matchesHere cs ps

/-- Occurrence of a substring anywhere in a character list. -/
def containsSub : List Char → List Char → Bool
  | [], pat => pat.isEmpty
  | c :: rest, pat => matchesHere (c :: rest) pat || containsSub rest pat

/-- Substring test modelling String.prototype.includes. -/
def strIncludes (hay pat : String) : Bool :=
  containsSub hay.data pat.data

/-- Fallback of parseResponseBody to res.text(): a non-empty text body, or
none on an empty body or a read failure. -/
def textFallback (res : HttpResponse) : Option BodyVal :=
  match res.textResult with
  | some txt => if txt.length > 0 then some (.text txt) else none
  | none => none

/-- parseResponseBody: attempt res.json() when the content type declares
application/json, degrade to text on a parse failure, and never throw. -/
def parseResponseBody (res : HttpResponse) : Option BodyVal :=
  if strIncludes (res.contentType.getD "") "application/json" then
    match res.jsonResult with
    | some v => some (.json v)
    | none => textFallback res
  else textFallback res

/-- isRetryableStatus: 408, 425, 429, and all 5xx are retryable. -/
def isRetryableStatus (status : Nat) : Bool :=
  status = 408 || status = 425 || status = 429 || status ≥ 500

/-- Decimal numeral parsing used by the Number() model: digits with an
optional fractional part. -/
def digitsToNat (cs : List Char) : Nat :=
  cs.foldl (fun acc c => acc * 10 + (c.toNat - 48)) 0

/-- Parse of an unsigned decimal numeral, possibly with a fractional part;
none when the shape is not numeric.  The value a.b is the exact rational
(a * 10 ^ k + b) / 10 ^ k, built with mkRat. -/
def parseDecimal (cs : List Char) : Option Rat :=
  let intPart := cs.takeWhile Char.isDigit
  let rest := cs.dropWhile Char.isDigit
  match rest with
  | [] => if intPart = [] then none else some (mkRat (digitsToNat intPart) 1)
  | '.' :: frac =>
    if frac.all Char.isDigit ∧ (intPart ≠ [] ∨ frac ≠ []) then
      some (mkRat (digitsToNat (intPart ++ frac)) (10 ^ frac.length))
    else none
  | _ => none

/-- Whitespace characters Number() strips from its string argument. -/
def jsWhitespace (c : Char) : Bool :=
  c = ' ' || c = '\t' || c = '\n' || c = '\r' ||
    c.toNat = 11 || c.toNat = 12

/-- Leading and trailing whitespace removal performed by Number(). -/
def trimChars (cs : List Char) : List Char :=
  ((cs.dropWhile jsWhitespace).reverse.dropWhile jsWhitespace).reverse

/-- Models the platform Number(x) conversion on the inputs backoff feeds
it: null and the empty (or all-whitespace) string map to 0, a signed
decimal numeral to its value, anything else to NaN (none).  Exotic
accepted forms (hex, binary, exponent, Infinity) are not modelled; they
are not finite-positive decimals, and a real retry-after header is a
delta-seconds numeral. -/
def jsNumber : Option String → Option Rat
  | none => some 0
  | some s =>
    match trimChars s.data with
    | [] => some 0
    | '+' :: rest => parseDecimal rest
    | '-' :: rest => (parseDecimal rest).map (fun q => -q)
    | cs => parseDecimal cs

/-- Math.round(q * 1000) for a positive rational, computed on the raw
fraction: half-up rounding is the floor of q * 1000 + 1 / 2, and for a
positive argument that floor is the Nat division below (the lemma
mathRound1000_eq identifies it with Mathlib's round). -/
def mathRound1000 (q : Rat) : Nat :=
  (2 * (q.num.toNat * 1000) + q.den) / (2 * q.den)

/-- Milliseconds waited by backoff(attempt, retryAfterHeader): the
retry-after value rounded to milliseconds when it is a finite number
strictly greater than zero, otherwise the deterministic linear
retryDelayMs * attempt (no jitter). -/
def backoffMs (cfg : SendPack) (attempt : Nat) (retryAfterHeader : Option String) : Nat :=
  match jsNumber retryAfterHeader with
  | some q => if 0 < q then mathRound1000 q else cfg.retryDelayMs * attempt
  | none => cfg.retryDelayMs * attempt

/-- JS truthiness of a parsed body, deciding whether the HTTP error text
appends the body (the lastBody ? ... : "" guard in the source). -/
def jsTruthy : BodyVal → Bool
  | .text s => s ≠ ""
  | .json .null => false
  | .json (.bool b) => b
  | .json (.num n) => n ≠ 0
  | .json (.str s) => s ≠ ""
  | .json (.arr _) => true
  | .json (.obj _) => true

/-- Rendering of the body inside the HTTP error text: strings verbatim
(the typeof lastBody === "string" branch), other values re-serialized. -/
def bodySuffix : BodyVal → String
  | .text s => s
  | .json (.str s) => s
  | .json v => v.stringify

/-- The lastError text composed for a non-2xx response. -/
def httpErrorMsg (status : Nat) (body : Option BodyVal) : String :=
  "HTTP " ++ toString status ++
    (match body with
     | some b => if jsTruthy b then ": " ++ bodySuffix b else ""
     | none => "")

/-- The lastError text composed in the catch branch: the timeout message
for an AbortError, the thrown error's message otherwise. -/
def errorDescription (cfg : SendPack) (isAbort : Bool) (message : String) : String :=
  if isAbort then "Timeout after " ++ toString cfg.timeoutMs ++ "ms" else message

/-- One outbound network call as fetchWithTimeout performs it: the POST
body and the header map passed to fetch. -/
structure Call where
  body : String
  headers : List (String × String)

/-- Observable I/O trace of one send call: the outbound calls in order and
the backoff waits (milliseconds) between attempts. -/
structure Trace where
  calls : List Call
  waits : List Nat

/-- The SendResult record send resolves to. -/
structure SendResult where
  success : Bool
  status : Nat
  responseBody : Option BodyVal := none
  error : Option String := none
  attempts : Nat

/-- Mutable locals of the while loop in send, plus the accumulated trace. -/
structure LoopState where
  attempt : Nat
  lastStatus : Nat
  lastError : Option String
  lastBody : Option BodyVal
  calls : List Call
  waits : List Nat

/-- The failure SendResult returned after the loop exits. -/
def failureResult (st : LoopState) : SendResult :=
  { success := false, status := st.lastStatus, responseBody := st.lastBody,
    error := st.lastError, attempts := st.attempt }

/-- The while loop of send.  The fuel argument counts the iterations the
loop condition attempt <= retries still admits (retries + 1 - attempt);
under that correspondence the fuel-exhausted branch is exactly the loop
condition turning false, returning the same failure record the source
builds after the loop. -/
def sendLoop (cfg : SendPack) (transport : Nat → String → TransportResult)
    (body : String) : Nat → LoopState → SendResult × Trace
  | 0, st => (failureResult st, { calls := st.calls, waits := st.waits })
  | fuel + 1, st =>
    let attempt := st.attempt + 1
    let calls := st.calls ++ [{ body := body, headers := cfg.headers }]
    match transport attempt body with
    | .ok res =>
      let lastBody := parseResponseBody res
      if 200 ≤ res.status ∧ res.status < 300 then
        ({ success := true, status := res.status, responseBody := lastBody,
           error := none, attempts := attempt },
         { calls := calls, waits := st.waits })
      else
        let st' : LoopState :=
          { attempt := attempt, lastStatus := res.status,
            lastError := some (httpErrorMsg res.status lastBody),
            lastBody := lastBody, calls := calls, waits := st.waits }
        if isRetryableStatus res.status = false ∨ cfg.retries < attempt then
          (failureResult st', { calls := st'.calls, waits := st'.waits })
        else
          sendLoop cfg transport body fuel
            { st' with waits := st.waits ++ [backoffMs cfg attempt res.retryAfter] }
    | .err isAbort message =>
      let st' : LoopState :=
        { attempt := attempt, lastStatus := st.lastStatus,
          lastError := some (errorDescription cfg isAbort message),
          lastBody := st.lastBody, calls := calls, waits := st.waits }
      if cfg.retries < attempt then
        (failureResult st', { calls := st'.calls, waits := st'.waits })
      else
        sendLoop cfg transport body fuel
          { st' with waits := st.waits ++ [backoffMs cfg attempt none] }

/-- send(packet): validate (throwing a validation error before any I/O on
failure), serialize the body once, then run the attempt loop. -/
def send (cfg : SendPack) (transport : Nat → String → TransportResult)
    (packet : PacketInput) : Except String (SendResult × Trace) :=
  match validatePacket packet with
  | .error e => .error e
  | .ok _ =>
    .ok (sendLoop cfg transport (stringifyPacket packet) (cfg.retries + 1)
      { attempt := 0, lastStatus := 0, lastError := none, lastBody := none,
        calls := [], waits := [] })

/-- An attempt outcome the loop treats as a retry-worthy failure: a thrown
transport error, or a response whose status is retryable and not 2xx. -/
def attemptFails (t : TransportResult) : Prop :=
  match t with
  | .ok res => isRetryableStatus res.status = true ∧ ¬(200 ≤ res.status ∧ res.status < 300)
  | .err _ _ => True

/-- Wait the dispatcher inserts after failed attempt n: the backoff fed by
the retry-after header of the failed response (a thrown error has no
response, so no header). -/
def waitRule (cfg : SendPack) (n : Nat) (t : TransportResult) : Nat :=
  match t with
  | .ok res => backoffMs cfg n res.retryAfter
  | .err _ _ => backoffMs cfg n none

/-- Value a header map associates to a name (first match; merged maps hold
each key once). -/
def headerGet : List (String × String) → String → Option String
  | [], _ => none
  | p :: rest, name => if p.1 = name then some p.2 else headerGet rest name

/-- The header value the construction-time merge is claimed to produce for
each name: a configured fixed header wins, else the idempotency key for
Idempotency-Key (when set and non-empty), else the user agent for
User-Agent (when set and non-empty), else the default Content-Type. -/
def claimedHeaderValue (opts : SendPackOptions) (name : String) : Option String :=
  match headerGet (opts.headers.getD []) name with
  | some v => some v
  | none =>
    if name = "Idempotency-Key" then
      match opts.idempotencyKey with
      | some k => if k = "" then none else some k
      | none => none
    else if name = "User-Agent" then
      match opts.userAgent with
      | some u => if u = "" then none else some u
      | none => none
    else if name = "Content-Type" then some "application/json"
    else none

/-- A transport standing for a server that echoes the request body: the
response carries status 200, a JSON content type, and the echoed bytes,
whose JSON parse (res.json()) is the JSON value of the request body,
supplied as the parameter. -/
def echoTransport (v : JValue) : Nat → String → TransportResult :=
  fun _ _ =>
    .ok
      { status := 200, retryAfter := none,
        contentType := some "application/json", jsonResult := some v,
        textResult := some v.stringify }

/-- The dispatcher obtained from construct with the default options. -/
def demoCfg : SendPack :=
  { endpoint := "http://example.com", retries := 2, timeoutMs := 5000,
    retryDelayMs := 300, headers := [("Content-Type", "application/json")],
    idempotencyKey := none }

/-- A minimal valid packet. -/
def demoPacket : PacketInput := { id := "a", timestamp := 0, payload := .obj [] }

/-- Transport answering 200 on every attempt. -/
def tp200 : Nat → String → TransportResult := fun _ _ => .ok { status := 200 }

/-- Transport answering 500 on every attempt. -/
def tp500 : Nat → String → TransportResult := fun _ _ => .ok { status := 500 }

/-- Transport answering 404 on every attempt. -/
def tp404 : Nat → String → TransportResult := fun _ _ => .ok { status := 404 }

/-- Transport answering 425 on every attempt. -/
def tp425 : Nat → String → TransportResult := fun _ _ => .ok { status := 425 }

/-- Transport whose every attempt throws a connection error. -/
def tpErr : Nat → String → TransportResult := fun _ _ => .err false "ECONNREFUSED"

/-- Transport answering 500 with retry-after "0" first, then 200. -/
def tpZeroRetryAfter : Nat → String → TransportResult := fun n _ =>
  if n = 1 then .ok { status := 500, retryAfter := some "0" } else .ok { status := 200 }

/-- Transport answering 429 with retry-after "2" first, then 500. -/
def tpRetryAfterTwo : Nat → String → TransportResult := fun n _ =>
  if n = 1 then .ok { status := 429, retryAfter := some "2" } else .ok { status := 500 }

/-- The outcome of sending demoPacket through tp200. -/
def demoOut200 : SendResult :=
  { success := true, status := 200, responseBody := none, error := none, attempts := 1 }

/-- The trace of sending demoPacket through tp200. -/
def demoTr200 : Trace :=
  { calls := [{ body := stringifyPacket demoPacket, headers := demoCfg.headers }],
    waits := [] }

/-- The outcome of sending demoPacket through tp500. -/
def demoOut500 : SendResult :=
  { success := false, status := 500, responseBody := none,
    error := some "HTTP 500", attempts := 3 }

/-- The trace of sending demoPacket through tp500. -/
def demoTr500 : Trace :=
  { calls := List.replicate 3 { body := stringifyPacket demoPacket, headers := demoCfg.headers },
    waits := [300, 600] }

/-- Options carrying only invalid numeric values: a negative retry count, a
zero timeout, a non-integral backoff base. -/
def optsBad : SendPackOptions :=
  { retries := some (-1 : Rat), timeoutMs := some 0, retryDelayMs := some (mkRat 1 2) }

/-- The dispatcher construct resolves from optsBad: every numeric option
fell back to its default. -/
def cfgBad : SendPack :=
  { endpoint := "http://example.com", retries := 2, timeoutMs := 5000,
    retryDelayMs := 300, headers := [("Content-Type", "application/json")],
    idempotencyKey := none }

/-- Options exercising every header source: user agent, idempotency key,
and fixed headers overriding the Content-Type default. -/
def optsHeaders : SendPackOptions :=
  { headers := some [("Content-Type", "text/plain"), ("X-Extra", "1")],
    idempotencyKey := some "IK", userAgent := some "UA" }

/-- The dispatcher construct resolves from optsHeaders. -/
def cfgHeaders : SendPack :=
  { endpoint := "http://example.com", retries := 2, timeoutMs := 5000,
    retryDelayMs := 300,
    headers := [("Content-Type", "text/plain"), ("User-Agent", "UA"),
      ("Idempotency-Key", "IK"), ("X-Extra", "1")],
    idempotencyKey := some "IK" }

/-- The Nat-division rounding of mathRound1000 agrees with the standard
half-up rounding of q * 1000 whenever the positivity guard of backoff
holds, so the executable definition is Math.round. -/
theorem mathRound1000_eq (q : Rat) (hq : 0 < q) :
    (mathRound1000 q : Int) = round (q * 1000) := by
  have hnum : 0 < q.num := Rat.num_pos.mpr hq
  have h1 : ((q.num.toNat : Int)) = q.num := Int.toNat_of_nonneg hnum.le
  have hden0 : (q.den : Rat) ≠ 0 := by
    exact_mod_cast q.den_ne_zero
  have hqd : (q.num : Rat) = q * (q.den : Rat) := by
    have h := Rat.num_div_den q
    rw [div_eq_iff hden0] at h
    exact h
  have hx : q * 1000 + 1 / 2 =
      (((2 * (q.num.toNat * 1000) + q.den : Nat) : Int) : Rat) / ((2 * q.den : Nat) : Rat) := by
    push_cast [h1]
    field_simp
    rw [hqd]
    ring
  rw [round_eq, hx, Rat.floor_intCast_div_natCast]
  rw [mathRound1000]
  push_cast [Int.ofNat_tdiv]
  rw [h1]

/-- Loop invariant: whatever the transport does, the loop makes between 1
and retries + 1 attempts, and a success exit carries a 2xx status and no
error field. -/
theorem sendLoop_inv (cfg : SendPack) (tp : Nat → String → TransportResult) (body : String) :
    ∀ fuel st out tr, st.attempt + fuel = cfg.retries + 1 →
      sendLoop cfg tp body fuel st = (out, tr) →
      (1 ≤ out.attempts ∧ out.attempts ≤ cfg.retries + 1) ∧
      (out.success = true → (200 ≤ out.status ∧ out.status < 300) ∧ out.error = none) := by
  intro fuel
  induction fuel with
  | zero =>
    intro st out tr hinv heq
    simp only [sendLoop] at heq
    cases heq
    exact ⟨⟨by show 1 ≤ st.attempt; omega, by show st.attempt ≤ cfg.retries + 1; omega⟩,
      fun hs => Bool.noConfusion hs⟩
  | succ fuel ih =>
    intro st out tr hinv heq
    simp only [sendLoop] at heq
    cases htp : tp (st.attempt + 1) body with
    | ok res =>
      simp only [htp] at heq
      by_cases h2 : 200 ≤ res.status ∧ res.status < 300
      · rw [if_pos h2] at heq
        cases heq
        exact ⟨⟨by show 1 ≤ st.attempt + 1; omega,
          by show st.attempt + 1 ≤ cfg.retries + 1; omega⟩, fun _ => ⟨h2, rfl⟩⟩
      · rw [if_neg h2] at heq
        by_cases hbr : isRetryableStatus res.status = false ∨ cfg.retries < st.attempt + 1
        · rw [if_pos hbr] at heq
          cases heq
          exact ⟨⟨by show 1 ≤ st.attempt + 1; omega,
            by show st.attempt + 1 ≤ cfg.retries + 1; omega⟩, fun hs => Bool.noConfusion hs⟩
        · rw [if_neg hbr] at heq
          exact ih _ _ _ (by show st.attempt + 1 + fuel = cfg.retries + 1; omega) heq
    | err isAbort message =>
      simp only [htp] at heq
      by_cases hbr : cfg.retries < st.attempt + 1
      · rw [if_pos hbr] at heq
        cases heq
        exact ⟨⟨by show 1 ≤ st.attempt + 1; omega,
          by show st.attempt + 1 ≤ cfg.retries + 1; omega⟩, fun hs => Bool.noConfusion hs⟩
      · rw [if_neg hbr] at heq
        exact ih _ _ _ (by show st.attempt + 1 + fuel = cfg.retries + 1; omega) heq

/-- The loop's outbound calls all carry the body computed before the loop
and the header map fixed at construction. -/
theorem sendLoop_calls (cfg : SendPack) (tp : Nat → String → TransportResult) (body : String) :
    ∀ fuel st out tr, sendLoop cfg tp body fuel st = (out, tr) →
      ∃ k, tr.calls = st.calls ++ List.replicate k { body := body, headers := cfg.headers } := by
  intro fuel
  induction fuel with
  | zero =>
    intro st out tr heq
    simp only [sendLoop] at heq
    cases heq
    exact ⟨0, by simp⟩
  | succ fuel ih =>
    intro st out tr heq
    simp only [sendLoop] at heq
    cases htp : tp (st.attempt + 1) body with
    | ok res =>
      simp only [htp] at heq
      by_cases h2 : 200 ≤ res.status ∧ res.status < 300
      · rw [if_pos h2] at heq
        cases heq
        exact ⟨1, by simp⟩
      · rw [if_neg h2] at heq
        by_cases hbr : isRetryableStatus res.status = false ∨ cfg.retries < st.attempt + 1
        · rw [if_pos hbr] at heq
          cases heq
          exact ⟨1, by simp⟩
        · rw [if_neg hbr] at heq
          obtain ⟨k, hk⟩ := ih _ _ _ heq
          refine ⟨k + 1, ?_⟩
          rw [hk]
          simp [List.replicate_succ]
    | err isAbort message =>
      simp only [htp] at heq
      by_cases hbr : cfg.retries < st.attempt + 1
      · rw [if_pos hbr] at heq
        cases heq
        exact ⟨1, by simp⟩
      · rw [if_neg hbr] at heq
        obtain ⟨k, hk⟩ := ih _ _ _ heq
        refine ⟨k + 1, ?_⟩
        rw [hk]
        simp [List.replicate_succ]

/-- When every attempt yields the same retryable non-success status, the
loop runs the whole budget and reports that status. -/
theorem sendLoop_all_retryable (cfg : SendPack) (tp : Nat → String → TransportResult)
    (body : String) (s : Nat) (hs : isRetryableStatus s = true)
    (h2xx : ¬(200 ≤ s ∧ s < 300)) :
    ∀ fuel st out tr, st.attempt + fuel = cfg.retries + 1 → 1 ≤ fuel →
      (∀ n, st.attempt < n → n ≤ cfg.retries + 1 → ∃ res, tp n body = .ok res ∧ res.status = s) →
      sendLoop cfg tp body fuel st = (out, tr) →
      out.success = false ∧ out.status = s ∧ out.attempts = cfg.retries + 1 := by
  intro fuel
  induction fuel with
  | zero =>
    intro st out tr hinv hfuel htp heq
    omega
  | succ fuel ih =>
    intro st out tr hinv hfuel hall heq
    simp only [sendLoop] at heq
    obtain ⟨res, htp, hsts⟩ := hall (st.attempt + 1) (by omega) (by omega)
    simp only [htp] at heq
    rw [hsts] at heq
    rw [if_neg h2xx] at heq
    by_cases hlast : cfg.retries < st.attempt + 1
    · rw [if_pos (Or.inr hlast)] at heq
      cases heq
      refine ⟨rfl, rfl, ?_⟩
      show st.attempt + 1 = cfg.retries + 1
      omega
    · rw [if_neg ?_] at heq
      · exact ih _ _ _ (by show st.attempt + 1 + fuel = cfg.retries + 1; omega) (by omega)
          (fun n hn hle => hall n (Nat.lt_of_succ_lt hn) hle) heq
      · rintro (hfalse | hgt)
        · rw [hs] at hfalse; cases hfalse
        · exact hlast hgt

/-- When every attempt throws, the loop exhausts the budget and reports
status 0, no body, and the description of the last thrown error. -/
theorem sendLoop_all_err (cfg : SendPack) (tp : Nat → String → TransportResult) (body : String) :
    ∀ fuel st out tr, st.attempt + fuel = cfg.retries + 1 → 1 ≤ fuel →
      st.lastStatus = 0 → st.lastBody = none →
      (∀ n, st.attempt < n → n ≤ cfg.retries + 1 → ∃ a m, tp n body = .err a m) →
      sendLoop cfg tp body fuel st = (out, tr) →
      out.success = false ∧ out.status = 0 ∧ out.responseBody = none ∧
        out.attempts = cfg.retries + 1 ∧
        ∃ a m, tp (cfg.retries + 1) body = .err a m ∧
          out.error = some (errorDescription cfg a m) := by
  intro fuel
  induction fuel with
  | zero =>
    intro st out tr hinv hfuel _ _ _ _
    omega
  | succ fuel ih =>
    intro st out tr hinv hfuel hst0 hstb hall heq
    simp only [sendLoop] at heq
    cases htp : tp (st.attempt + 1) body with
    | ok res =>
      obtain ⟨a, m, he⟩ := hall (st.attempt + 1) (by omega) (by omega)
      rw [htp] at he
      cases he
    | err isAbort message =>
      simp only [htp] at heq
      by_cases hlast : cfg.retries < st.attempt + 1
      · rw [if_pos hlast] at heq
        cases heq
        refine ⟨rfl, hst0, hstb, by show st.attempt + 1 = cfg.retries + 1; omega,
          isAbort, message, ?_, rfl⟩
        rw [show cfg.retries + 1 = st.attempt + 1 by omega]
        exact htp
      · rw [if_neg hlast] at heq
        refine ih _ _ _ ?_ ?_ ?_ ?_ ?_ heq
        · show st.attempt + 1 + fuel = cfg.retries + 1
          omega
        · omega
        · exact hst0
        · exact hstb
        · intro n hn hle
          exact hall n (Nat.lt_of_succ_lt hn) hle

/-- When attempt k receives a non-2xx, non-retryable status after a run of
retry-worthy failures, the loop stops at attempt k with that response. -/
theorem sendLoop_terminal (cfg : SendPack) (tp : Nat → String → TransportResult)
    (body : String) (k : Nat) (res : HttpResponse)
    (hterm : tp k body = .ok res)
    (h2xx : ¬(200 ≤ res.status ∧ res.status < 300))
    (hnr : isRetryableStatus res.status = false) :
    ∀ fuel st out tr, st.attempt + fuel = cfg.retries + 1 →
      st.attempt < k → k ≤ cfg.retries + 1 →
      (∀ n, st.attempt < n → n < k → attemptFails (tp n body)) →
      sendLoop cfg tp body fuel st = (out, tr) →
      out.success = false ∧ out.status = res.status ∧ out.attempts = k ∧
        out.responseBody = parseResponseBody res := by
  intro fuel
  induction fuel with
  | zero =>
    intro st out tr hinv hlt hle _ _
    omega
  | succ fuel ih =>
    intro st out tr hinv hlt hle hprev heq
    simp only [sendLoop] at heq
    by_cases hk : st.attempt + 1 = k
    · have htp : tp (st.attempt + 1) body = .ok res := by rw [hk]; exact hterm
      simp only [htp] at heq
      rw [if_neg h2xx] at heq
      rw [if_pos (Or.inl hnr)] at heq
      cases heq
      exact ⟨rfl, rfl, hk, rfl⟩
    · have hfail := hprev (st.attempt + 1) (by omega) (by omega)
      cases htp : tp (st.attempt + 1) body with
      | ok r =>
        rw [htp] at hfail
        obtain ⟨hr, hr2⟩ := hfail
        simp only [htp] at heq
        rw [if_neg hr2] at heq
        rw [if_neg ?_] at heq
        · exact ih _ _ _ (by show st.attempt + 1 + fuel = cfg.retries + 1; omega)
            (by show st.attempt + 1 < k; omega) hle
            (fun n hn hnk => hprev n (Nat.lt_of_succ_lt hn) hnk) heq
        · rintro (hfalse | hgt)
          · rw [hr] at hfalse; cases hfalse
          · omega
      | err a m =>
        simp only [htp] at heq
        rw [if_neg ?_] at heq
        · exact ih _ _ _ (by show st.attempt + 1 + fuel = cfg.retries + 1; omega)
            (by show st.attempt + 1 < k; omega) hle
            (fun n hn hnk => hprev n (Nat.lt_of_succ_lt hn) hnk) heq
        · omega

/-- When every attempt fails retry-worthily, the waits recorded by the
loop are exactly the backoff of each failed attempt, fed by that
attempt's retry-after header. -/
theorem sendLoop_allfail_waits (cfg : SendPack) (tp : Nat → String → TransportResult)
    (body : String) :
    ∀ fuel st out tr, st.attempt + fuel = cfg.retries + 1 → 1 ≤ fuel →
      (∀ n, st.attempt < n → n ≤ cfg.retries + 1 → attemptFails (tp n body)) →
      sendLoop cfg tp body fuel st = (out, tr) →
      tr.waits = st.waits ++
        (List.range' (st.attempt + 1) (fuel - 1)).map (fun n => waitRule cfg n (tp n body)) := by
  intro fuel
  induction fuel with
  | zero =>
    intro st out tr hinv hfuel _ _
    omega
  | succ fuel ih =>
    intro st out tr hinv hfuel hall heq
    simp only [sendLoop] at heq
    have hfail := hall (st.attempt + 1) (by omega) (by omega)
    cases htp : tp (st.attempt + 1) body with
    | ok r =>
      rw [htp] at hfail
      obtain ⟨hr, hr2⟩ := hfail
      simp only [htp] at heq
      rw [if_neg hr2] at heq
      by_cases hlast : cfg.retries < st.attempt + 1
      · rw [if_pos (Or.inr hlast)] at heq
        cases heq
        have hf : fuel = 0 := by omega
        subst hf
        simp
      · rw [if_neg ?_] at heq
        · obtain ⟨f, rfl⟩ : ∃ f, fuel = f + 1 := ⟨fuel - 1, by omega⟩
          have h := ih _ _ _ (by show st.attempt + 1 + (f + 1) = cfg.retries + 1; omega)
            (by omega) (fun n hn hle => hall n (Nat.lt_of_succ_lt hn) hle) heq
          simp only [Nat.add_sub_cancel] at h ⊢
          rw [h, List.range'_succ, List.map_cons]
          simp [waitRule, htp]
        · rintro (hfalse | hgt)
          · rw [hr] at hfalse; cases hfalse
          · exact hlast hgt
    | err a m =>
      simp only [htp] at heq
      by_cases hlast : cfg.retries < st.attempt + 1
      · rw [if_pos hlast] at heq
        cases heq
        have hf : fuel = 0 := by omega
        subst hf
        simp
      · rw [if_neg hlast] at heq
        obtain ⟨f, rfl⟩ : ∃ f, fuel = f + 1 := ⟨fuel - 1, by omega⟩
        have h := ih _ _ _ (by show st.attempt + 1 + (f + 1) = cfg.retries + 1; omega)
          (by omega) (fun n hn hle => hall n (Nat.lt_of_succ_lt hn) hle) heq
        simp only [Nat.add_sub_cancel] at h ⊢
        rw [h, List.range'_succ, List.map_cons]
        simp [waitRule, htp]

theorem headerGet_not_hasKey (k : String) :
    ∀ hs, hasKey hs k = false → headerGet hs k = none := by
  intro hs
  induction hs with
  | nil => intro _; rfl
  | cons p rest ih =>
    intro h
    unfold hasKey at h
    rw [Bool.or_eq_false_iff] at h
    unfold headerGet
    rw [if_neg (by simpa using h.1), ih h.2]

theorem headerGet_append (name : String) :
    ∀ l1 l2, headerGet (l1 ++ l2) name =
      match headerGet l1 name with
      | some v => some v
      | none => headerGet l2 name := by
  intro l1 l2
  induction l1 with
  | nil => rfl
  | cons p rest ih =>
    show headerGet (p :: (rest ++ l2)) name = _
    by_cases hp : p.1 = name
    · simp only [headerGet, if_pos hp]
    · simp only [headerGet, if_neg hp, ih]

theorem headerGet_mapReplace (k v name : String) :
    ∀ hs, headerGet (hs.map (fun p => if p.1 = k then (p.1, v) else p)) name =
      if name = k then (if hasKey hs k then some v else none)
      else headerGet hs name := by
  intro hs
  induction hs with
  | nil => by_cases hnk : name = k <;> simp [headerGet, hasKey, hnk]
  | cons p rest ih =>
    obtain ⟨a, b⟩ := p
    by_cases hak : a = k <;> by_cases han : a = name <;>
      by_cases hnk : name = k <;>
      simp_all [headerGet, hasKey]

theorem headerGet_none_of_not_mem (name : String) :
    ∀ hs : List (String × String), name ∉ hs.map Prod.fst → headerGet hs name = none := by
  intro hs
  induction hs with
  | nil => intro _; rfl
  | cons p rest ih =>
    intro h
    simp only [List.map_cons, List.mem_cons, not_or] at h
    show headerGet (p :: rest) name = none
    rw [headerGet, if_neg (fun hh => h.1 hh.symm), ih h.2]

theorem headerGet_setHeader (k v name : String) (hs : List (String × String)) :
    headerGet (setHeader hs k v) name =
      if name = k then some v else headerGet hs name := by
  unfold setHeader
  cases hk : hasKey hs k with
  | true =>
    rw [if_pos rfl, headerGet_mapReplace]
    by_cases hnk : name = k
    · rw [if_pos hnk, if_pos hnk, if_pos hk]
    · rw [if_neg hnk, if_neg hnk]
  | false =>
    rw [if_neg (by simp), headerGet_append]
    by_cases hnk : name = k
    · subst hnk
      rw [headerGet_not_hasKey _ _ hk]
      simp [headerGet]
    · cases hh : headerGet hs name with
      | some w => simp only [hh, if_neg hnk]
      | none =>
        simp only [hh, if_neg hnk]
        show headerGet [(k, v)] name = none
        rw [headerGet, if_neg (fun h => hnk h.symm)]
        rfl

theorem headerGet_mergeHeaders (name : String) :
    ∀ upd base, (upd.map Prod.fst).Nodup →
      headerGet (mergeHeaders base upd) name =
        match headerGet upd name with
        | some v => some v
        | none => headerGet base name := by
  intro upd
  induction upd with
  | nil => intro base _; rfl
  | cons kv rest ih =>
    intro base hnodup
    obtain ⟨k, v⟩ := kv
    have hnd := (List.nodup_cons.mp hnodup).2
    have hkn : k ∉ rest.map Prod.fst := (List.nodup_cons.mp hnodup).1
    show headerGet (mergeHeaders (setHeader base k v) rest) name = _
    rw [ih _ hnd]
    by_cases hnk : name = k
    · subst hnk
      rw [headerGet_none_of_not_mem _ _ hkn]
      show headerGet (setHeader base name v) name = _
      rw [headerGet_setHeader, if_pos rfl]
      rw [show headerGet ((name, v) :: rest) name = some v from by rw [headerGet, if_pos rfl]]
    · rw [show headerGet ((k, v) :: rest) name = headerGet rest name from
        by rw [headerGet, if_neg (fun h => hnk h.symm)]]
      cases hr : headerGet rest name with
      | some w => rfl
      | none =>
        rw [headerGet_setHeader, if_neg hnk]

theorem headerGet_CT (name : String) :
    headerGet [("Content-Type", "application/json")] name =
      if name = "Content-Type" then some "application/json" else none := by
  by_cases h : name = "Content-Type"
  · subst h
    rw [headerGet, if_pos rfl, if_pos rfl]
  · rw [headerGet, if_neg (fun hh => h hh.symm), if_neg h]
    rfl

theorem headerGet_buildHeaders (opts : SendPackOptions) (name : String)
    (hnodup : ((opts.headers.getD []).map Prod.fst).Nodup) :
    headerGet (buildHeaders opts) name = claimedHeaderValue opts name := by
  unfold buildHeaders claimedHeaderValue
  rw [headerGet_mergeHeaders name (opts.headers.getD []) _ hnodup]
  cases hf : headerGet (opts.headers.getD []) name with
  | some v => rfl
  | none =>
    cases hik : opts.idempotencyKey with
    | none =>
      cases hua : opts.userAgent with
      | none =>
        by_cases h1 : name = "Idempotency-Key" <;> by_cases h2 : name = "User-Agent" <;>
          by_cases h3 : name = "Content-Type" <;> simp_all [headerGet_CT]
      | some u =>
        by_cases hu : u = "" <;>
          by_cases h1 : name = "Idempotency-Key" <;> by_cases h2 : name = "User-Agent" <;>
          by_cases h3 : name = "Content-Type" <;>
          simp_all [headerGet_CT, headerGet_setHeader]
    | some kv =>
      cases hua : opts.userAgent with
      | none =>
        by_cases hk : kv = "" <;> by_cases h1 : name = "Idempotency-Key" <;>
          by_cases h2 : name = "User-Agent" <;> by_cases h3 : name = "Content-Type" <;>
          simp_all [headerGet_CT, headerGet_setHeader]
      | some u =>
        by_cases hk : kv = "" <;> by_cases hu : u = "" <;>
          by_cases h1 : name = "Idempotency-Key" <;> by_cases h2 : name = "User-Agent" <;>
          by_cases h3 : name = "Content-Type" <;>
          simp_all [headerGet_CT, headerGet_setHeader]


/-- Any retryable status is outside the 200-299 success range. -/
theorem retryable_not_success {s : Nat} (hs : isRetryableStatus s = true) :
    ¬(200 ≤ s ∧ s < 300) := by
  have h := hs
  simp only [isRetryableStatus, Bool.or_eq_true, decide_eq_true_eq] at h
  rcases h with ((h | h) | h) | h <;> omega

/-- C1: every SendOutcome that send resolves satisfies the outcome
invariants: 1 ≤ attempts ≤ maxRetries + 1 for every configuration and
every transport behavior, and success = true forces a status in 200-299
and an absent error field. -/
theorem sendOutcomeInvariants (cfg : SendPack) (tp : Nat → String → TransportResult)
    (p : PacketInput) (out : SendResult) (tr : Trace)
    (h : send cfg tp p = .ok (out, tr)) :
    (1 ≤ out.attempts ∧ out.attempts ≤ cfg.retries + 1) ∧
    (out.success = true → (200 ≤ out.status ∧ out.status < 300) ∧ out.error = none) := by
  rw [send] at h
  cases hv : validatePacket p with
  | error e =>
    rw [hv] at h
    exact Except.noConfusion h
  | ok u =>
    rw [hv] at h
    injection h with h2
    exact sendLoop_inv cfg tp (stringifyPacket p) (cfg.retries + 1) _ out tr
      (by show 0 + (cfg.retries + 1) = cfg.retries + 1; omega) h2

/-- Witness for C1 at the default configuration, a transport answering 200,
and a concrete valid packet. -/
theorem sendOutcomeInvariants_witness :
    (1 ≤ demoOut200.attempts ∧ demoOut200.attempts ≤ demoCfg.retries + 1) ∧
    (demoOut200.success = true →
      (200 ≤ demoOut200.status ∧ demoOut200.status < 300) ∧ demoOut200.error = none) :=
  sendOutcomeInvariants demoCfg tp200 demoPacket demoOut200 demoTr200 (by rfl)

/-- C2: a packet with an empty id, a non-integral or negative timestamp, or
a payload that is not a plain record makes send fail with a validation
error whose value is independent of the transport: no network call happens
and the failure is never retried. -/
theorem invalidPacketNoNetwork (cfg : SendPack) (p : PacketInput)
    (h : p.id = "" ∨ ¬(p.timestamp.den = 1 ∧ 0 ≤ p.timestamp) ∨ p.payload.isObj = false) :
    ∃ e, ∀ tp, send cfg tp p = .error e := by
  have hval : ∃ e, validatePacket p = .error e := by
    unfold validatePacket
    rcases h with h1 | h2 | h3
    · exact ⟨_, by rw [if_pos h1, if_neg (by simp)]⟩
    · exact ⟨_, by rw [if_neg h2, if_neg (by simp)]⟩
    · exact ⟨_, by
        rw [if_neg (show ¬(p.payload.isObj = true) from by simp [h3]), if_neg (by simp)]⟩
  obtain ⟨e, he⟩ := hval
  exact ⟨e, fun tp => by rw [send, he]⟩

/-- Witness for C2 at an empty-id packet: the validation error is the same
whatever transport is plugged in. -/
theorem invalidPacketNoNetwork_witness :
    ∃ e, ∀ tp, send demoCfg tp { id := "", timestamp := 0, payload := .obj [] } = .error e :=
  invalidPacketNoNetwork demoCfg _ (Or.inl rfl)

/-- C3: when the transport answers a fixed retryable status on every
attempt, send runs the whole budget: exactly maxRetries + 1 attempts, and
a failure outcome carrying that status; with maxRetries = 2 and status 500
that is 3 attempts. -/
theorem retryableExhaustsBudget (cfg : SendPack) (tp : Nat → String → TransportResult)
    (p : PacketInput) (s : Nat)
    (hval : validatePacket p = .ok ())
    (hs : isRetryableStatus s = true)
    (hall : ∀ n, 1 ≤ n → n ≤ cfg.retries + 1 →
      ∃ res, tp n (stringifyPacket p) = .ok res ∧ res.status = s) :
    ∃ out tr, send cfg tp p = .ok (out, tr) ∧
      out.success = false ∧ out.status = s ∧ out.attempts = cfg.retries + 1 := by
  obtain ⟨out, tr, hrun⟩ : ∃ out tr, sendLoop cfg tp (stringifyPacket p) (cfg.retries + 1)
      { attempt := 0, lastStatus := 0, lastError := none, lastBody := none,
        calls := [], waits := [] } = (out, tr) := ⟨_, _, rfl⟩
  refine ⟨out, tr, ?_, ?_⟩
  · rw [send, hval, hrun]
  · exact sendLoop_all_retryable cfg tp (stringifyPacket p) s hs
      (retryable_not_success hs) (cfg.retries + 1)
      { attempt := 0, lastStatus := 0, lastError := none, lastBody := none,
        calls := [], waits := [] } out tr
      (Nat.zero_add (cfg.retries + 1)) (by omega)
      (fun n hn hle => hall n hn hle) hrun

/-- Witness for C3: status 500 on every attempt with maxRetries = 2 gives
success = false, status = 500, attempts = 3. -/
theorem retryableExhaustsBudget_witness :
    ∃ out tr, send demoCfg tp500 demoPacket = .ok (out, tr) ∧
      out.success = false ∧ out.status = 500 ∧ out.attempts = 3 :=
  retryableExhaustsBudget demoCfg tp500 demoPacket 500 (by rfl) (by rfl)
    (fun n _ _ => ⟨{ status := 500 }, rfl, rfl⟩)


/-- C4 counterexample: status 425 is not in the 200-299 range and not in
the claimed retryable set (408, 429, or 5xx), so the claim predicts that a
425 received on the first attempt stops send immediately with exactly 1
attempt; the code instead treats 425 as retryable and, with the default
maxRetries = 2, makes 3 attempts. -/
theorem nonRetryable425Counterexample :
    (¬(200 ≤ 425 ∧ 425 < 300)) ∧
    (425 ≠ 408 ∧ 425 ≠ 429 ∧ ¬(500 ≤ 425)) ∧
    (∃ tr, send demoCfg tp425 demoPacket = .ok
      ({ success := false, status := 425, responseBody := none,
         error := some "HTTP 425", attempts := 3 }, tr)) ∧
    (3 : Nat) ≠ 1 := by
  refine ⟨by omega, ⟨by omega, by omega, by omega⟩, ⟨_, rfl⟩, by omega⟩

/-- C4 (amended): with the retryable set as the code defines it (408, 425,
429, and all 5xx), a response whose status is neither 2xx nor retryable is
terminal: if attempt k receives such a status after k - 1 retry-worthy
failures, send stops at exactly k attempts with a failure outcome carrying
that status and that response's parsed body. -/
theorem terminalStatusStopsImmediately (cfg : SendPack)
    (tp : Nat → String → TransportResult) (p : PacketInput) (k : Nat) (res : HttpResponse)
    (hval : validatePacket p = .ok ())
    (hk1 : 1 ≤ k) (hk : k ≤ cfg.retries + 1)
    (hprev : ∀ n, 1 ≤ n → n < k → attemptFails (tp n (stringifyPacket p)))
    (hterm : tp k (stringifyPacket p) = .ok res)
    (h2xx : ¬(200 ≤ res.status ∧ res.status < 300))
    (hnr : isRetryableStatus res.status = false) :
    ∃ out tr, send cfg tp p = .ok (out, tr) ∧ out.success = false ∧
      out.status = res.status ∧ out.attempts = k ∧
      out.responseBody = parseResponseBody res := by
  obtain ⟨out, tr, hrun⟩ : ∃ out tr, sendLoop cfg tp (stringifyPacket p) (cfg.retries + 1)
      { attempt := 0, lastStatus := 0, lastError := none, lastBody := none,
        calls := [], waits := [] } = (out, tr) := ⟨_, _, rfl⟩
  refine ⟨out, tr, ?_, ?_⟩
  · rw [send, hval, hrun]
  · exact sendLoop_terminal cfg tp (stringifyPacket p) k res hterm h2xx hnr
      (cfg.retries + 1)
      { attempt := 0, lastStatus := 0, lastError := none, lastBody := none,
        calls := [], waits := [] } out tr
      (Nat.zero_add (cfg.retries + 1)) hk1 hk
      (fun n hn hnk => hprev n hn hnk) hrun

/-- Witness for the amended C4: a 404 on the first attempt gives exactly 1
attempt, success = false, status = 404. -/
theorem terminalStatusStopsImmediately_witness :
    ∃ out tr, send demoCfg tp404 demoPacket = .ok (out, tr) ∧ out.success = false ∧
      out.status = 404 ∧ out.attempts = 1 ∧ out.responseBody = none := by
  have h := terminalStatusStopsImmediately demoCfg tp404 demoPacket 1
    { status := 404 } (by rfl) (by omega) (by omega)
    (fun n hn hnk => absurd (Nat.lt_of_lt_of_le hnk hn) (by omega))
    rfl (by decide) (by rfl)
  exact h

/-- C5 counterexample: the first attempt fails with a 500 carrying the
retry-after header "0", whose value converted to milliseconds is 0; the
claim says that value takes precedence, but the code ignores a
non-positive retry-after and waits the linear backoff of
retryDelayMs x 1 = 300 ms before the retry. -/
theorem retryAfterZeroCounterexample :
    jsNumber (some "0") = some 0 ∧
    (∃ out tr, send demoCfg tpZeroRetryAfter demoPacket = .ok (out, tr) ∧
      tr.waits = [300]) ∧
    (300 : Nat) ≠ 0 := by
  refine ⟨by rfl, ⟨_, _, rfl, rfl⟩, by omega⟩

/-- C5 (amended): before every retry the wait is retryDelayMs x
attemptNumber, except that a failed response whose retry-after header
parses to a finite number strictly greater than zero overrides it with
that value rounded to milliseconds (backoffMs); a header that is absent,
unparseable, or not positive (such as "0") falls back to the linear rule.
Stated over any run whose attempts all fail retry-worthily: the recorded
waits are exactly the per-attempt backoff values. -/
theorem backoffWaitsFollowPolicy (cfg : SendPack) (tp : Nat → String → TransportResult)
    (p : PacketInput)
    (hval : validatePacket p = .ok ())
    (hfail : ∀ n, 1 ≤ n → n ≤ cfg.retries + 1 → attemptFails (tp n (stringifyPacket p))) :
    ∃ out tr, send cfg tp p = .ok (out, tr) ∧
      tr.waits = (List.range' 1 cfg.retries).map
        (fun n => waitRule cfg n (tp n (stringifyPacket p))) := by
  obtain ⟨out, tr, hrun⟩ : ∃ out tr, sendLoop cfg tp (stringifyPacket p) (cfg.retries + 1)
      { attempt := 0, lastStatus := 0, lastError := none, lastBody := none,
        calls := [], waits := [] } = (out, tr) := ⟨_, _, rfl⟩
  refine ⟨out, tr, ?_, ?_⟩
  · rw [send, hval, hrun]
  · have h := sendLoop_allfail_waits cfg tp (stringifyPacket p) (cfg.retries + 1)
      { attempt := 0, lastStatus := 0, lastError := none, lastBody := none,
        calls := [], waits := [] } out tr
      (Nat.zero_add (cfg.retries + 1)) (by omega)
      (fun n hn hle => hfail n hn hle) hrun
    simpa using h

/-- Witness for the amended C5: retry-after "2" on a 429 first attempt
overrides the linear backoff with 2000 ms, and the second failed attempt
(a plain 500) waits 300 x 2 = 600 ms. -/
theorem backoffWaitsFollowPolicy_witness :
    ∃ out tr, send demoCfg tpRetryAfterTwo demoPacket = .ok (out, tr) ∧
      tr.waits = [2000, 600] := by
  obtain ⟨out, tr, h1, h2⟩ := backoffWaitsFollowPolicy demoCfg tpRetryAfterTwo demoPacket
    (by rfl)
    (fun n hn hle => by
      unfold tpRetryAfterTwo attemptFails
      by_cases hn1 : n = 1
      · rw [if_pos hn1]
        exact ⟨by rfl, by decide⟩
      · rw [if_neg hn1]
        exact ⟨by rfl, by decide⟩)
  refine ⟨out, tr, h1, ?_⟩
  rw [h2]
  rfl


/-- C6: the request body is fixed before the attempt loop, so every
outbound call of one send carries the same bytes, namely the one-time
serialization of the packet; in particular any two attempts of the same
send post identical bodies. -/
theorem bodyIdenticalAcrossAttempts (cfg : SendPack) (tp : Nat → String → TransportResult)
    (p : PacketInput) (out : SendResult) (tr : Trace)
    (h : send cfg tp p = .ok (out, tr)) :
    (∀ c ∈ tr.calls, c.body = stringifyPacket p) ∧
    (∀ c1 ∈ tr.calls, ∀ c2 ∈ tr.calls, c1.body = c2.body) := by
  rw [send] at h
  cases hv : validatePacket p with
  | error e =>
    rw [hv] at h
    exact Except.noConfusion h
  | ok u =>
    rw [hv] at h
    injection h with h2
    obtain ⟨k, hk⟩ := sendLoop_calls cfg tp (stringifyPacket p) (cfg.retries + 1)
      { attempt := 0, lastStatus := 0, lastError := none, lastBody := none,
        calls := [], waits := [] } out tr h2
    have hmem : ∀ c ∈ tr.calls, c.body = stringifyPacket p := by
      intro c hc
      rw [hk] at hc
      have hc' : c ∈ List.replicate k
          ({ body := stringifyPacket p, headers := cfg.headers } : Call) := by
        simpa using hc
      rw [List.eq_of_mem_replicate hc']
    exact ⟨hmem, fun c1 hc1 c2 hc2 => (hmem c1 hc1).trans (hmem c2 hc2).symm⟩

/-- Witness for C6: in the three-attempt 500 run, the recorded call body is
the packet's one-time serialization. -/
theorem bodyIdenticalAcrossAttempts_witness :
    ({ body := stringifyPacket demoPacket, headers := demoCfg.headers } : Call).body =
      stringifyPacket demoPacket :=
  (bodyIdenticalAcrossAttempts demoCfg tp500 demoPacket demoOut500 demoTr500 (by rfl)).1
    _ (by simp [demoTr500, List.mem_replicate])

/-- C7: for a valid packet send always resolves to an outcome, whatever the
transport throws or answers (response bodies that fail to parse included),
and when every attempt throws, the outcome carries status 0, no body, the
full attempt budget, and the description of the last thrown error. -/
theorem sendAlwaysResolves (cfg : SendPack) (tp : Nat → String → TransportResult)
    (p : PacketInput) (hval : validatePacket p = .ok ()) :
    ∃ out tr, send cfg tp p = .ok (out, tr) ∧
      ((∀ n, 1 ≤ n → n ≤ cfg.retries + 1 → ∃ a m, tp n (stringifyPacket p) = .err a m) →
        out.success = false ∧ out.status = 0 ∧ out.responseBody = none ∧
          out.attempts = cfg.retries + 1 ∧
          ∃ a m, tp (cfg.retries + 1) (stringifyPacket p) = .err a m ∧
            out.error = some (errorDescription cfg a m)) := by
  obtain ⟨out, tr, hrun⟩ : ∃ out tr, sendLoop cfg tp (stringifyPacket p) (cfg.retries + 1)
      { attempt := 0, lastStatus := 0, lastError := none, lastBody := none,
        calls := [], waits := [] } = (out, tr) := ⟨_, _, rfl⟩
  refine ⟨out, tr, by rw [send, hval, hrun], fun hall => ?_⟩
  exact sendLoop_all_err cfg tp (stringifyPacket p) (cfg.retries + 1)
    { attempt := 0, lastStatus := 0, lastError := none, lastBody := none,
      calls := [], waits := [] } out tr
    (Nat.zero_add (cfg.retries + 1)) (by omega) rfl rfl
    (fun n hn hle => hall n hn hle) hrun

/-- Witness for C7: a transport that always throws ECONNREFUSED yields a
resolved failure outcome with status 0, 3 attempts, and that error text. -/
theorem sendAlwaysResolves_witness :
    ∃ out tr, send demoCfg tpErr demoPacket = .ok (out, tr) ∧ out.success = false ∧
      out.status = 0 ∧ out.attempts = 3 ∧ out.error = some "ECONNREFUSED" := by
  obtain ⟨out, tr, h1, h2⟩ := sendAlwaysResolves demoCfg tpErr demoPacket (by rfl)
  obtain ⟨hs, h0, hb, ha, a, m, htp, herr⟩ := h2 (fun n _ _ => ⟨false, "ECONNREFUSED", rfl⟩)
  have hinj : false = a ∧ "ECONNREFUSED" = m := by
    have hx : TransportResult.err false "ECONNREFUSED" = .err a m := htp
    injection hx with x y
    exact ⟨x, y⟩
  refine ⟨out, tr, h1, hs, h0, ha, ?_⟩
  rw [herr, ← hinj.1, ← hinj.2]
  rfl

/-- C8 counterexample: create "a" with the empty-object payload, send
against the body-echoing transport; the successful outcome's response body
is the parsed echo of the serialized packet (an object with id, timestamp
and payload fields), which does not deep-equal the original payload. -/
theorem echoRoundTripCounterexample :
    (∃ tr, send demoCfg (echoTransport (packetJson demoPacket)) demoPacket = .ok
      ({ success := true, status := 200,
         responseBody := some (.json (packetJson demoPacket)),
         error := none, attempts := 1 }, tr)) ∧
    some (BodyVal.json (packetJson demoPacket)) ≠ some (.json demoPacket.payload) := by
  constructor
  · exact ⟨_, rfl⟩
  · simp [packetJson, demoPacket]

/-- C8 (amended): create(id, payload) sent against the echoing transport
yields a successful outcome whose response body deep-equals the serialized
packet object, whose payload field in turn deep-equals the original
payload. -/
theorem echoRoundTripPacket (now : Nat) (id : String) (fields : List (String × JValue))
    (hid : id ≠ "") :
    ∃ tr, send demoCfg (echoTransport (packetJson (create now id (.obj fields))))
      (create now id (.obj fields)) = .ok
      ({ success := true, status := 200,
         responseBody := some (.json (packetJson (create now id (.obj fields)))),
         error := none, attempts := 1 }, tr) ∧
      jsonLookup (packetJson (create now id (.obj fields))) "payload" =
        some (.obj fields) := by
  have hval : validatePacket (create now id (.obj fields)) = .ok () := by
    have hts : (((now : Nat) : Rat).den = 1 ∧ 0 ≤ ((now : Nat) : Rat)) :=
      ⟨Rat.den_natCast now, Nat.cast_nonneg now⟩
    unfold validatePacket create
    dsimp only
    rw [if_neg hid, if_pos hts]
    rfl
  refine ⟨⟨[⟨stringifyPacket (create now id (.obj fields)), demoCfg.headers⟩], []⟩, ?_, rfl⟩
  rw [send, hval]
  rfl


/-- Witness for the amended C8 at id "a", empty payload, clock 0. -/
theorem echoRoundTripPacket_witness :
    ∃ tr, send demoCfg (echoTransport (packetJson (create 0 "a" (.obj []))))
      (create 0 "a" (.obj [])) = .ok
      ({ success := true, status := 200,
         responseBody := some (.json (packetJson (create 0 "a" (.obj [])))),
         error := none, attempts := 1 }, tr) ∧
      jsonLookup (packetJson (create 0 "a" (.obj []))) "payload" = some (.obj []) :=
  echoRoundTripPacket 0 "a" [] (by decide)

/-- An option that fails its integrality or sign check resolves to the
default, mirroring the ternary in the constructor. -/
theorem resolveNumericOption_default (b : Bool) (o : Option Rat) (d : Nat)
    (h : ∀ q, o = some q → ¬(q.den = 1 ∧ (if b then 0 < q.num else 0 ≤ q.num))) :
    resolveNumericOption b o d = d := by
  cases o with
  | none => rfl
  | some q =>
    show (if q.den = 1 ∧ (if b then 0 < q.num else 0 ≤ q.num) then q.num.toNat else d) = d
    rw [if_neg (h q rfl)]

/-- C9: construction fails with a configuration error exactly when the
endpoint is empty or rejected by the URL parser ("not a url" being such an
endpoint); invalid numeric options never make construction fail and are
silently replaced by the defaults: retries 2, timeout 5000 ms, backoff
base 300 ms. -/
theorem constructorValidation :
    (∀ ep opts, (∃ e, SendPack.construct ep opts = .error e) ↔
      (ep = "" ∨ urlParseOk ep = false)) ∧
    urlParseOk "not a url" = false ∧
    (∀ ep opts cfg, SendPack.construct ep opts = .ok cfg →
      ((∀ q, opts.retries = some q → ¬(q.den = 1 ∧ 0 ≤ q.num)) →
        cfg.retries = DEFAULT_RETRIES) ∧
      ((∀ q, opts.timeoutMs = some q → ¬(q.den = 1 ∧ 0 < q.num)) →
        cfg.timeoutMs = DEFAULT_TIMEOUT_MS) ∧
      ((∀ q, opts.retryDelayMs = some q → ¬(q.den = 1 ∧ 0 ≤ q.num)) →
        cfg.retryDelayMs = DEFAULT_RETRY_DELAY_MS)) := by
  refine ⟨?_, by rfl, ?_⟩
  · intro ep opts
    unfold SendPack.construct
    by_cases h1 : ep = ""
    · rw [if_pos h1]
      simp [h1]
    · rw [if_neg h1]
      by_cases h2 : urlParseOk ep = false
      · rw [if_pos h2]
        simp [h1, h2]
      · rw [if_neg h2]
        simp [h1, h2]
  · intro ep opts cfg h
    unfold SendPack.construct at h
    by_cases h1 : ep = ""
    · rw [if_pos h1] at h
      exact Except.noConfusion h
    · rw [if_neg h1] at h
      by_cases h2 : urlParseOk ep = false
      · rw [if_pos h2] at h
        exact Except.noConfusion h
      · rw [if_neg h2] at h
        injection h with hcfg
        subst hcfg
        refine ⟨fun hq => ?_, fun hq => ?_, fun hq => ?_⟩
        · exact resolveNumericOption_default false opts.retries _ hq
        · exact resolveNumericOption_default true opts.timeoutMs _ hq
        · exact resolveNumericOption_default false opts.retryDelayMs _ hq

/-- Witness for C9: "not a url" is rejected, while invalid numerics
(retries -1, timeout 0, backoff 1/2) construct fine with the defaults. -/
theorem constructorValidation_witness :
    (∃ e, SendPack.construct "not a url" {} = .error e) ∧
    SendPack.construct "http://example.com" optsBad = .ok cfgBad ∧
    cfgBad.retries = 2 ∧ cfgBad.timeoutMs = 5000 ∧ cfgBad.retryDelayMs = 300 := by
  have hok : SendPack.construct "http://example.com" optsBad = .ok cfgBad := by rfl
  have h3 := constructorValidation.2.2 "http://example.com" optsBad cfgBad hok
  refine ⟨(constructorValidation.1 "not a url" {}).mpr (Or.inr (by rfl)), hok, ?_, ?_, ?_⟩
  · exact h3.1 (fun q hq => by
      have hx : some (-1 : Rat) = some q := hq
      injection hx with h2
      rw [← h2]
      decide)
  · exact h3.2.1 (fun q hq => by
      have hx : some (0 : Rat) = some q := hq
      injection hx with h2
      rw [← h2]
      decide)
  · exact h3.2.2 (fun q hq => by
      have hx : some (mkRat 1 2) = some q := hq
      injection hx with h2
      rw [← h2]
      decide)

/-- C10: the header map is fixed at construction as the override-merge of
the Content-Type default, the optional User-Agent, the optional
Idempotency-Key, and the configured fixed headers (later entries winning,
so a fixed Content-Type or Idempotency-Key replaces the earlier value),
and every outbound call of every send uses exactly that map. -/
theorem headersFixedAtConstruction (ep : String) (opts : SendPackOptions) (cfg : SendPack)
    (hnodup : ((opts.headers.getD []).map Prod.fst).Nodup)
    (hok : SendPack.construct ep opts = .ok cfg) :
    (∀ name, headerGet cfg.headers name = claimedHeaderValue opts name) ∧
    (∀ tp p out tr, send cfg tp p = .ok (out, tr) →
      ∀ c ∈ tr.calls, c.headers = cfg.headers) := by
  have hcfg : cfg.headers = buildHeaders opts := by
    unfold SendPack.construct at hok
    by_cases h1 : ep = ""
    · rw [if_pos h1] at hok
      exact Except.noConfusion hok
    · rw [if_neg h1] at hok
      by_cases h2 : urlParseOk ep = false
      · rw [if_pos h2] at hok
        exact Except.noConfusion hok
      · rw [if_neg h2] at hok
        injection hok with hcfg
        rw [← hcfg]
  constructor
  · intro name
    rw [hcfg, headerGet_buildHeaders opts name hnodup]
  · intro tp p out tr h c hc
    rw [send] at h
    cases hv : validatePacket p with
    | error e =>
      rw [hv] at h
      exact Except.noConfusion h
    | ok u =>
      rw [hv] at h
      injection h with h2
      obtain ⟨k, hk⟩ := sendLoop_calls cfg tp (stringifyPacket p) (cfg.retries + 1)
        { attempt := 0, lastStatus := 0, lastError := none, lastBody := none,
          calls := [], waits := [] } out tr h2
      rw [hk] at hc
      have hc' : c ∈ List.replicate k
          ({ body := stringifyPacket p, headers := cfg.headers } : Call) := by
        simpa using hc
      rw [List.eq_of_mem_replicate hc']

/-- Witness for C10: with a user agent, an idempotency key, and fixed
headers overriding Content-Type, the merged map resolves per the claimed
rule; in particular the fixed Content-Type wins and the key is present. -/
theorem headersFixedAtConstruction_witness :
    headerGet cfgHeaders.headers "Content-Type" =
      claimedHeaderValue optsHeaders "Content-Type" ∧
    headerGet cfgHeaders.headers "Content-Type" = some "text/plain" ∧
    headerGet cfgHeaders.headers "Idempotency-Key" = some "IK" := by
  have h := (headersFixedAtConstruction "http://example.com" optsHeaders cfgHeaders
    (by decide) (by rfl)).1
  exact ⟨h "Content-Type", by rfl, by rfl⟩

end BitWakeScan
